import Mathlib

/-!
Verification development for the self-update mechanism of the Build Test
System (source: `src/main.py` as the primary flow, `src/updater.py` as the
secondary flow).  The Python code is shallowly embedded: pure logic becomes
Lean functions, the filesystem becomes explicit directory-tree /
association-list values, injected environments decide the outcome of
fallible external operations (network, archive extraction, `xcopy`), and the
generated Windows batch script is modelled as a state machine run over those
environments.
-/

namespace BuildTest

/-! ## Platforms and the S3 URL table (`PlatformDetector`, main.py lines 19-56) -/

/-- The simplified platform names returned by `PlatformDetector.get_platform`. -/
inductive Platform where
  | windows
  | mac
  | linux
deriving DecidableEq, Repr

/-- The `S3_URLS` table embedded in `PlatformDetector.get_s3_url` (main.py
lines 37-40): entries for `windows` and `mac` only. -/
def s3Urls : Platform → Option String
  | .windows => some "https://release-jesus-automator.s3.us-east-1.amazonaws.com/releases/main.dist.zip"
  | .mac => some "https://your-s3-bucket.s3.amazonaws.com/BuildTestSystem-mac.zip"
  | .linux => none

/-- Embeds `PlatformDetector.get_s3_url` (main.py lines 32-48): look the platform up
in the table; if there is no URL and the platform is not windows, raise. -/
def getS3Url (p : Platform) : Except String String :=
  match s3Urls p with
  | some url => .ok url
  | none =>
    if p ≠ .windows then .error "Windows is the primary target."
    else .error "no URL"

/-- Embeds `UpdateDownloader.install_update` of main.py (lines 235-246): only the
`windows` platform is dispatched to an installer; every other platform raises
"This build system is optimized for Windows.", re-wrapped by the outer
handler as an "Installation failed: ..." error.  The windows branch
(`install_windows`, lines 248-259) accepts only a `.zip` payload. -/
def mainInstallUpdate (p : Platform) (fileExt : String) : Except String Unit :=
  match p with
  | .windows =>
    if fileExt = ".zip" then .ok ()
    else .error ("Installation failed: Unsupported Windows update file type: " ++ fileExt)
  | _ => .error "Installation failed: This build system is optimized for Windows."

/-- Which platform installer `updater.py`'s `UpdateDownloader.install_update`
(lines 118-133) routes to. -/
inductive InstallRoute where
  | windowsInstaller
  | macInstaller
deriving DecidableEq, Repr

/-- Embeds `UpdateDownloader.install_update` of updater.py (lines 118-133): windows
and mac each route to a platform installer; anything else raises. -/
def updaterInstallUpdate (p : Platform) : Except String InstallRoute :=
  match p with
  | .windows => .ok .windowsInstaller
  | .mac => .ok .macInstaller
  | .linux => .error "Installation failed: This build system is optimized for Windows. Other platforms have limited support."

/-! ## Download progress (`UpdateDownloader.download_file`, main.py lines 210-233)

The streamed body is modelled as the list of chunk sizes handed to the loop
by `response.iter_content`; `total_size` is the Content-Length header value,
defaulting to 0 when the header is absent (`int(response.headers.get
('content-length', 0))`).  A falsy (empty) chunk is skipped by `if chunk:`.
Each written chunk advances `downloaded` and, only when `total_size > 0`,
emits `int(downloaded / total_size * 100)` — integer division. -/

/-- The `total_size` value as computed from an optional Content-Length header. -/
def totalSizeOf (contentLength : Option Nat) : Nat :=
  contentLength.getD 0

/-- The list of percentages emitted by the chunk loop of `download_file`,
starting from an already-downloaded byte count. -/
def progressEvents (totalSize : Nat) : List Nat → Nat → List Nat
  | [], _ => []
  | c :: rest, downloaded =>
    if c = 0 then
      progressEvents totalSize rest downloaded
    else
      let d := downloaded + c
      if totalSize > 0 then
        d * 100 / totalSize :: progressEvents totalSize rest d
      else
        progressEvents totalSize rest d

/-! ## Directory trees

Directories are modelled as finite trees; a directory's entry list is fused
into the tree type as a cons-chain (`dnil` / `dcons name child rest`), the
standard association-list encoding, which keeps every function below plainly
structurally recursive.  This is the shape `os.walk`, `shutil.copytree` and
the batch script's `xcopy` operate on. -/

/-- A filesystem object: a file with content, or a directory given as a
chain of named entries (`dnil` = empty directory, `dcons n t rest` =
directory whose first entry is `n ↦ t` and whose remaining entries form
`rest`). -/
inductive FS where
  | file (content : String) : FS
  | dnil : FS
  | dcons (name : String) (child : FS) (rest : FS) : FS
deriving DecidableEq, Repr

/-- Look a directory entry up by name (first occurrence). -/
def findEntry (n : String) : FS → Option FS
  | .dcons m t rest => if m = n then some t else findEntry n rest
  | _ => none

/-- Follow a path of names down a tree; `some` is the object reached. -/
def FS.lookup : FS → List String → Option FS
  | t, [] => some t
  | t, n :: p =>
    match findEntry n t with
    | some u => FS.lookup u p
    | none => none

/-- Whether the plain files of a directory chain contain `exe` (the
`main_exe_name in files` test of the `os.walk` loop, main.py line 106:
`files` holds only regular files). -/
def hasFile (exe : String) : FS → Bool
  | .dcons n (.file _) rest => n = exe || hasFile exe rest
  | .dcons _ _ rest => hasFile exe rest
  | _ => false

/-- The payload-root search of `install_from_zip` (main.py lines 105-108):
`os.walk` visits the root directory first and then recurses into
subdirectories in order (top-down depth-first preorder); the loop breaks at
the first visited directory whose files contain the executable name and
returns that directory.  The recursion over the remaining entries `rest`
reuses `findPayload` itself; its root check on the chain suffix is vacuous
there (the full chain was already checked), so this is exactly the walk's
order. -/
def findPayload (exe : String) : FS → Option FS
  | .file _ => none
  | .dnil => none
  | .dcons n t rest =>
    if hasFile exe (.dcons n t rest) then some (.dcons n t rest)
    else
      match findPayload exe t with
      | some r => some r
      | none => findPayload exe rest

/-- Suffix test over the underlying character list (what
`fnmatch` does for a `*.ext` pattern). -/
def endsWithChars (suffix : List Char) (n : String) : Bool :=
  List.isPrefixOf suffix.reverse n.data.reverse

/-- Whether a name matches the exclusion patterns `*.tmp`, `*.log` of
`shutil.ignore_patterns` in `create_backup` (main.py line 84). -/
def matchesExclusion (n : String) : Bool :=
  endsWithChars ".tmp".data n || endsWithChars ".log".data n

/-- The copy performed by `shutil.copytree(app_dir, backup_dir,
ignore=shutil.ignore_patterns('*.tmp', '*.log'))` (main.py line 84): a full
recursive copy in which every entry (file or directory) whose name matches
an exclusion pattern is skipped, together with everything below it. -/
def pruneTree : FS → FS
  | .file c => .file c
  | .dnil => .dnil
  | .dcons n t rest =>
    if matchesExclusion n then pruneTree rest
    else .dcons n (pruneTree t) (pruneTree rest)

/-- Embeds `WindowsUpdater.create_backup` (main.py lines 78-88): if a directory
already exists at the backup location it is removed with `shutil.rmtree`,
then `shutil.copytree` copies the application directory there with the
`*.tmp` / `*.log` exclusion filter.  `copytree` itself would fail if the
destination still existed, which is why the stale backup is removed first;
the produced backup therefore never depends on the prior contents. -/
def create_backup (appDir : FS) (priorBackup : Option FS) (copytreeFails : Bool) :
    Option FS :=
  match priorBackup with
  | some _ =>
    -- shutil.rmtree(backup_dir), then shutil.copytree into the now-free slot
    if copytreeFails then none else some (pruneTree appDir)
  | none => if copytreeFails then none else some (pruneTree appDir)

/-! ## Flat directory maps

The batch script replaces files with `xcopy /E /H /C /I /Q /Y source dest`,
which recursively copies `source`'s files over `dest`, overwriting files of
the same relative path and leaving `dest`-only files in place.  A directory
is flattened to an association list from relative path to file content;
lookup takes the first occurrence, so prepending a directory's flattening
models "source wins, destination extras survive". -/

/-- Flat relative-path → content map. -/
abbrev DirMap : Type := List (String × String)

/-- First-occurrence lookup in a flat directory map. -/
def DirMap.get (m : DirMap) (k : String) : Option String :=
  match m with
  | [] => none
  | (k', v) :: rest => if k' = k then some v else DirMap.get rest k

/-- Flatten a directory chain to relative paths under a prefix: files become
`pre ++ name`, subdirectories recurse with `pre ++ name ++ "/"`. -/
def flattenPre (pre : String) : FS → DirMap
  | .file _ => []
  | .dnil => []
  | .dcons n (.file c) rest => (pre ++ n, c) :: flattenPre pre rest
  | .dcons n t rest => flattenPre (pre ++ n ++ "/") t ++ flattenPre pre rest

/-- Flatten a directory tree from its root. -/
def flatten (t : FS) : DirMap :=
  flattenPre "" t

/-! ## The session temp directory

`tempfile.mkdtemp()` gives each `UpdateDownloader` a private temp directory
(main.py line 199).  During a session it accumulates: the downloaded zip, the
`extract` directory, the `backup` directory, and the generated `updater.bat`.
Nothing in main.py ever removes the temp directory itself. -/

/-- Presence/contents of the session temp directory's artifacts. -/
structure TempState where
  zipPresent : Bool
  extract : Option FS
  backup : Option FS
  scriptPresent : Bool
deriving DecidableEq, Repr

/-! ## The generated batch script (`install_from_zip`, main.py lines 127-170)

The script is an independent detached process.  Its per-run environment
decides whether each `xcopy` attempt fails (`errorlevel 1`), and which files
a failed attempt leaves behind (`xcopy /C` keeps copying past errors, so a
failed attempt may deposit an arbitrary part of the payload).  The claims are
proved for every such environment. -/

/-- Environment of one run of the generated script. -/
structure ScriptEnv where
  /-- Whether the `xcopy` of the numbered attempt fails (`errorlevel 1`). -/
  copyFailsAt : Nat → Bool
  /-- Files a failed numbered attempt leaves in the target directory. -/
  strayWrites : Nat → DirMap

/-- Everything the generated script's text closes over: the payload directory
(`app_source_dir`), the target (`app_dir`), the backup directory if it
exists, the executable path spelled into both `start` commands
(`current_exe`), and the temp-directory artifacts present at spawn time. -/
structure ScriptCfg where
  payload : DirMap
  appDir : DirMap
  backup : Option DirMap
  currentExe : String
  temp : TempState

/-- Terminal observation of one script run. -/
structure ScriptRun where
  appDir : DirMap
  /-- The executable path passed to `start "" "..."`, when some branch ran it. -/
  relaunched : Option String
  temp : TempState
deriving DecidableEq

/-- The `:cleanup` label (script lines `rmdir /s /q extract_dir` and
`del "%~f0"`): removes the extraction directory and the script file itself —
and nothing else in the temp directory. -/
def cleanupTemp (t : TempState) : TempState :=
  { t with extract := none, scriptPresent := false }

/-- The `:retry` loop: `attempts` starts at 0 and is incremented at the top
of each iteration; `if %attempts% GTR 3 goto error` bounds the loop to
attempts 1, 2, 3.  A failing `xcopy` leaves its stray writes in the target
and retries; a succeeding one copies the payload over the target (payload
files win, target-only files survive).  Returns (success?, target). -/
def runCopyLoop (env : ScriptEnv) (payload : DirMap) :
    Nat → Nat → DirMap → Bool × DirMap
  | _, 0, app => (false, app)
  | attempt, rem + 1, app =>
    if env.copyFailsAt attempt then
      runCopyLoop env payload (attempt + 1) rem (env.strayWrites attempt ++ app)
    else
      (true, payload ++ app)

/-- One full run of the generated script, after the grace period and the
best-effort `taskkill` of the parent (neither touches any directory):
  - copy loop succeeds → `start "" "{current_exe}"` then `:cleanup`;
  - copy loop exhausts its attempts → `:error`: only `if exist backup_dir`
    does it `xcopy` the backup over the target and `start` the executable;
    with no backup directory nothing is relaunched; then `:cleanup`. -/
def runScript (env : ScriptEnv) (cfg : ScriptCfg) : ScriptRun :=
  let r := runCopyLoop env cfg.payload 1 3 cfg.appDir
  if r.1 then
    { appDir := r.2, relaunched := some cfg.currentExe, temp := cleanupTemp cfg.temp }
  else
    match cfg.backup with
    | some b =>
      { appDir := b ++ r.2, relaunched := some cfg.currentExe, temp := cleanupTemp cfg.temp }
    | none =>
      { appDir := r.2, relaunched := none, temp := cleanupTemp cfg.temp }

/-! ## The pre-commit pipeline

`UpdateDownloader.run`/`download_file` then (after the user confirms)
`install_update` → `install_windows` → `install_from_zip`, up to the spawn of
the detached script.  Every failure on this stretch is raised, caught, and
surfaced to `MainWindow.on_update_error`; the live application directory is
never written. -/

/-- The executable name `install_from_zip` always searches for
(main.py line 103). -/
def mainExeName : String := "BuildTestSystem.exe"

/-- Error taxonomy of the pre-commit stretch. -/
inductive UpdateError where
  | networkError
  | httpStatusError (code : Nat)
  | corruptArchive (msg : String)
  | payloadNotFound
  | backupFailed
deriving DecidableEq, Repr

/-- Outcome of `requests.get` + `raise_for_status` + the chunk stream. -/
inductive DownloadOutcome where
  | netFail
  | httpFail (code : Nat)
  | ok (chunks : List Nat)

/-- Injected outcomes of the pipeline's external operations. -/
structure PipeEnv where
  download : DownloadOutcome
  /-- Parsed contents of the downloaded zip, or a `BadZipFile` error. -/
  archive : Except String FS
  /-- Whether `shutil.copytree` inside `create_backup` raises. -/
  backupWriteFails : Bool

/-- Process-level state the pipeline reads and writes. -/
structure SysState where
  /-- The live install directory (`app_dir`), as a tree. -/
  appDir : FS
  /-- The `current_exe` path, computed once by `get_current_executable`. -/
  currentExe : String
  temp : TempState

/-- How the pre-commit stretch ends: an error event reported to the caller
(`error.emit` from `run`, or the raise chain into `on_update_error`), or a
detached script spawned with its closed-over configuration. -/
inductive PipeOutcome where
  | errorReported (e : UpdateError)
  | spawned (cfg : ScriptCfg)

/-- The pre-commit pipeline (main.py lines 204-233 and 91-184):
download to the temp dir; extract the zip to `temp/extract`; walk for the
payload root; `create_backup(app_dir, temp/backup)`, aborting if it reports
failure; write `updater.bat` into the temp dir and spawn it. -/
def runPipeline (env : PipeEnv) (st : SysState) : SysState × PipeOutcome :=
  match env.download with
  | .netFail => (st, .errorReported .networkError)
  | .httpFail code => (st, .errorReported (.httpStatusError code))
  | .ok _chunks =>
    let st := { st with temp.zipPresent := true }
    match env.archive with
    | .error msg => (st, .errorReported (.corruptArchive msg))
    | .ok tree =>
      let st := { st with temp.extract := some tree }
      match findPayload mainExeName tree with
      | none => (st, .errorReported .payloadNotFound)
      | some payloadDir =>
        match create_backup st.appDir st.temp.backup env.backupWriteFails with
        | none => (st, .errorReported .backupFailed)
        | some b =>
          let st := { st with temp.backup := some b, temp.scriptPresent := true }
          (st, .spawned
            { payload := flatten payloadDir
              appDir := flatten st.appDir
              backup := some (flatten b)
              currentExe := st.currentExe
              temp := st.temp })

/-- The script configuration spawned by a pipeline run, when it reached the
hand-off. -/
def spawnedCfg (env : PipeEnv) (st : SysState) : Option ScriptCfg :=
  match (runPipeline env st).2 with
  | .spawned cfg => some cfg
  | .errorReported _ => none

/-! ## `MainWindow` and update sessions (main.py lines 270-424)

`MainWindow.start_update` shows a confirmation dialog and, on Yes, disables
the update button, shows the progress bar and creates and starts a fresh
`UpdateDownloader` — it performs no check whether `self.downloader` already
holds a running session.  The only thing standing between the user and a
second concurrent session is that the button stays disabled until
`on_update_error` or the cancel branch of `on_download_complete` re-enables
it, and a disabled Qt button emits no `clicked` signal. -/

/-- Lifecycle phase of the window's (single) downloader slot. -/
inductive Phase where
  | idle
  | downloading
  | handedOff
  | failed
  | cancelled
deriving DecidableEq, Repr

/-- Observable `MainWindow` state.  `downloaderCount` counts the
`UpdateDownloader` objects created so far, to make a second started session
visible. -/
structure MWState where
  phase : Phase
  downloaderCount : Nat
  updateButtonEnabled : Bool
  progressVisible : Bool
  progressValue : Nat
  statusText : String
deriving DecidableEq, Repr

/-- Initial state built by `init_ui`. -/
def MWState.init : MWState :=
  { phase := .idle, downloaderCount := 0, updateButtonEnabled := true
    progressVisible := false, progressValue := 0, statusText := "Ready" }

/-- Embeds `MainWindow.start_update` (main.py lines 316-341): on a confirmed
dialog, disable the button, show the progress bar at 0, set the status text
and start a new `UpdateDownloader`.  The second component is the error
message reported through `on_update_error`, if any: the only error path is
the `except` around the downloader construction, which cannot fire on the
supported windows configuration — in particular no existing in-flight
session is detected or rejected. -/
def startUpdate (s : MWState) (userConfirms : Bool) : MWState × Option String :=
  if userConfirms then
    ({ s with updateButtonEnabled := false
              progressVisible := true
              progressValue := 0
              statusText := "Downloading from S3..."
              phase := .downloading
              downloaderCount := s.downloaderCount + 1 }, none)
  else
    (s, none)

/-- Events delivered to the window: a click of the update button (with the
user's dialog reply), a progress signal, the download-complete signal (with
the user's install-confirmation reply), and the error signal. -/
inductive UIEvent where
  | buttonClick (confirm : Bool)
  | progress (pct : Nat)
  | downloadComplete (installConfirmed : Bool)
  | errorSignal (msg : String)

/-- The window's reaction to one event.  A disabled button emits no
`clicked` signal, so a click while the button is disabled changes nothing;
downloader signals arrive only while a downloader is running
(phase `downloading`). -/
def uiStep (s : MWState) : UIEvent → MWState
  | .buttonClick confirm =>
    if s.updateButtonEnabled then (startUpdate s confirm).1 else s
  | .progress pct =>
    if s.phase = .downloading then
      { s with progressValue := pct
               statusText := "Downloading update..." }
    else s
  | .downloadComplete installConfirmed =>
    if s.phase = .downloading then
      if installConfirmed then
        -- install_update + force_exit: the process hands off and exits
        { s with phase := .handedOff, progressVisible := false
                 statusText := "Starting installation..." }
      else
        { s with phase := .cancelled, progressVisible := false
                 statusText := "Update cancelled", updateButtonEnabled := true }
    else s
  | .errorSignal _ =>
    if s.phase = .downloading then
      { s with phase := .failed, progressVisible := false
               statusText := "Update failed", updateButtonEnabled := true }
    else s

/-- States the window can reach from `init` under any event sequence. -/
inductive Reachable : MWState → Prop where
  | init : Reachable MWState.init
  | step {s} (e : UIEvent) : Reachable s → Reachable (uiStep s e)

/-! ## Helper lemmas: download progress -/

/-- A run of all-zero chunks emits nothing. -/
lemma progressEvents_all_zero (totalSize : Nat) :
    ∀ (chunks : List Nat) (d : Nat), chunks.all (· = 0) = true →
      progressEvents totalSize chunks d = [] := by
  intro chunks
  induction chunks with
  | nil => intro d _; rfl
  | cons c rest ih =>
    intro d hall
    simp only [List.all_cons, Bool.and_eq_true, decide_eq_true_eq] at hall
    simp [progressEvents, hall.1, ih d (by simpa using hall.2)]

/-- A list of all-zero naturals sums to zero. -/
lemma sum_all_zero : ∀ (l : List Nat), l.all (· = 0) = true → l.sum = 0 := by
  intro l
  induction l with
  | nil => intro _; rfl
  | cons c rest ih =>
    intro hall
    simp only [List.all_cons, Bool.and_eq_true, decide_eq_true_eq] at hall
    simp [hall.1, ih (by simpa using hall.2)]

/-- With a positive total, any nonzero chunk produces at least one event. -/
lemma progressEvents_ne_nil (totalSize : Nat) (hpos : 0 < totalSize) :
    ∀ (chunks : List Nat) (d : Nat), (∃ c ∈ chunks, c ≠ 0) →
      progressEvents totalSize chunks d ≠ [] := by
  intro chunks
  induction chunks with
  | nil => intro d h; simp at h
  | cons c rest ih =>
    intro d h
    by_cases hc : c = 0
    · subst hc
      have : ∃ c ∈ rest, c ≠ 0 := by
        rcases h with ⟨x, hx, hxne⟩
        rcases List.mem_cons.mp hx with h0 | hmem
        · exact absurd h0 hxne
        · exact ⟨x, hmem, hxne⟩
      simp only [progressEvents, if_pos rfl]
      exact ih d this
    · simp [progressEvents, hc, hpos]

/-- Prepending the percentage of the already-downloaded byte count keeps the
event stream a non-decreasing chain: each event divides a larger numerator by
the same total. -/
lemma progressEvents_chain (totalSize : Nat) (hpos : 0 < totalSize) :
    ∀ (chunks : List Nat) (d : Nat),
      List.Chain' (· ≤ ·) (d * 100 / totalSize :: progressEvents totalSize chunks d) := by
  intro chunks
  induction chunks with
  | nil => intro d; simp [progressEvents]
  | cons c rest ih =>
    intro d
    by_cases hc : c = 0
    · simpa [progressEvents, hc] using ih d
    · simp only [progressEvents, if_neg hc, if_pos hpos]
      refine List.chain'_cons.mpr ⟨?_, ih (d + c)⟩
      exact Nat.div_le_div_right (Nat.mul_le_mul_right 100 (Nat.le_add_right d c))

/-- The last emitted event, when the chunks add up exactly to the remaining
total: nothing for all-zero chunks, else 100. -/
lemma progressEvents_getLast (totalSize : Nat) (hpos : 0 < totalSize) :
    ∀ (chunks : List Nat) (d : Nat), d + chunks.sum = totalSize →
      (progressEvents totalSize chunks d).getLast? =
        (if chunks.all (· = 0) then none else some 100) := by
  intro chunks
  induction chunks with
  | nil => intro d _; simp [progressEvents]
  | cons c rest ih =>
    intro d hsum
    by_cases hc : c = 0
    · subst hc
      have hrest : d + rest.sum = totalSize := by simpa using hsum
      simpa [progressEvents] using ih d hrest
    · have hrest : (d + c) + rest.sum = totalSize := by
        simpa [Nat.add_assoc] using hsum
      simp only [progressEvents, if_neg hc, if_pos hpos]
      by_cases hall : rest.all (· = 0) = true
      · have hzero : rest.sum = 0 := sum_all_zero rest hall
        have hdc : d + c = totalSize := by omega
        have hval : (d + c) * 100 / totalSize = 100 := by
          rw [hdc]
          exact Nat.mul_div_cancel_left 100 hpos
        rw [progressEvents_all_zero totalSize rest (d + c) hall, hval]
        simp [hc]
      · have hex : ∃ x ∈ rest, x ≠ 0 := by
          by_contra hno
          push_neg at hno
          exact hall (by simpa [List.all_eq_true] using hno)
        have hne := progressEvents_ne_nil totalSize hpos rest (d + c) hex
        simp only [Bool.not_eq_true] at hall
        rcases hl : progressEvents totalSize rest (d + c) with _ | ⟨x, xs⟩
        · exact absurd hl hne
        · have hihl := ih (d + c) hrest
          rw [hl] at hihl
          rw [List.getLast?_cons_cons, hihl]
          simp [hc, hall]

/-! ## Claim theorems (first batch) -/

/-- C5: for every download with Content-Length `N > 0` whose chunks total
`N` bytes, the emitted progress percentages are monotonically non-decreasing
and the final emitted value is 100. -/
theorem progress_monotone_and_final_100 (totalSize : Nat) (chunks : List Nat)
    (hpos : 0 < totalSize) (hsum : chunks.sum = totalSize) :
    List.Chain' (· ≤ ·) (progressEvents totalSize chunks 0) ∧
      (progressEvents totalSize chunks 0).getLast? = some 100 := by
  constructor
  · exact (progressEvents_chain totalSize hpos chunks 0).tail
  · have h0 : (0 : Nat) + chunks.sum = totalSize := by simpa using hsum
    rw [progressEvents_getLast totalSize hpos chunks 0 h0]
    have : chunks.all (· = 0) = false := by
      rcases Bool.eq_false_or_eq_true (chunks.all (· = 0)) with h | h
      · exfalso
        have := sum_all_zero chunks h
        omega
      · exact h
    simp [this]

/-- Witness for C5: a 16,384-byte body delivered in two 8,192-byte chunks. -/
theorem progress_monotone_and_final_100_witness :
    0 < 16384 ∧ ([8192, 8192] : List Nat).sum = 16384 ∧
      (List.Chain' (· ≤ ·) (progressEvents 16384 [8192, 8192] 0) ∧
        (progressEvents 16384 [8192, 8192] 0).getLast? = some 100) :=
  ⟨by decide, by decide,
    progress_monotone_and_final_100 16384 [8192, 8192] (by decide) (by decide)⟩

/-- C9: when the response carries no Content-Length header, `total_size`
defaults to 0 and the `total_size > 0` guard suppresses every progress
emission, whatever the chunk stream is. -/
theorem no_content_length_no_progress (chunks : List Nat) (downloaded : Nat) :
    progressEvents (totalSizeOf none) chunks downloaded = [] := by
  show progressEvents 0 chunks downloaded = []
  induction chunks generalizing downloaded with
  | nil => rfl
  | cons c rest ih => by_cases hc : c = 0 <;> simp [progressEvents, hc, ih]

/-- C10: in the primary flow (main.py), `install_update` fails with the
"optimized for Windows" installation error for every platform other than
windows — even though the URL table has a mac entry (so a mac download can
succeed) and the secondary flow (updater.py) routes mac to a mac installer. -/
theorem main_install_update_nonwindows_fails (p : Platform) (ext : String)
    (h : p ≠ .windows) :
    mainInstallUpdate p ext =
        .error "Installation failed: This build system is optimized for Windows." ∧
      getS3Url .mac =
        .ok "https://your-s3-bucket.s3.amazonaws.com/BuildTestSystem-mac.zip" ∧
      updaterInstallUpdate .mac = .ok .macInstaller := by
  refine ⟨?_, rfl, rfl⟩
  cases p with
  | windows => exact absurd rfl h
  | mac => rfl
  | linux => rfl

/-- Witness for C10 at the mac platform with a `.zip` download. -/
theorem main_install_update_nonwindows_fails_witness :
    Platform.mac ≠ Platform.windows ∧
      (mainInstallUpdate .mac ".zip" =
          .error "Installation failed: This build system is optimized for Windows." ∧
        getS3Url .mac =
          .ok "https://your-s3-bucket.s3.amazonaws.com/BuildTestSystem-mac.zip" ∧
        updaterInstallUpdate .mac = .ok .macInstaller) :=
  ⟨by decide, main_install_update_nonwindows_fails .mac ".zip" (by decide)⟩

/-! ## Helper lemmas: flat maps and the copy loop -/

/-- A hit in the front map survives appending a second map behind it. -/
lemma dirMapGet_append_some {a : DirMap} (b : DirMap) {k v : String}
    (h : DirMap.get a k = some v) : DirMap.get (a ++ b) k = some v := by
  induction a with
  | nil => simp [DirMap.get] at h
  | cons hd tl ih =>
    obtain ⟨k', v'⟩ := hd
    rw [List.cons_append]
    by_cases hk : k' = k <;> simp [DirMap.get, hk] at h ⊢
    · exact h
    · exact ih h

/-- Unfolding one failing attempt of the retry loop. -/
lemma runCopyLoop_fail_step (env : ScriptEnv) (payload : DirMap)
    (attempt rem : Nat) (app : DirMap) (h : env.copyFailsAt attempt = true) :
    runCopyLoop env payload attempt (rem + 1) app =
      runCopyLoop env payload (attempt + 1) rem (env.strayWrites attempt ++ app) := by
  simp [runCopyLoop, h]

/-- Unfolding one succeeding attempt of the retry loop. -/
lemma runCopyLoop_ok_step (env : ScriptEnv) (payload : DirMap)
    (attempt rem : Nat) (app : DirMap) (h : env.copyFailsAt attempt = false) :
    runCopyLoop env payload attempt (rem + 1) app = (true, payload ++ app) := by
  simp [runCopyLoop, h]

/-- When attempts 1, 2 and 3 all fail, the loop gives up (`goto error`),
leaving in the target only the original files plus the strays of the three
failed copies. -/
lemma runCopyLoop_all_fail (env : ScriptEnv) (payload : DirMap)
    (h1 : env.copyFailsAt 1 = true) (h2 : env.copyFailsAt 2 = true)
    (h3 : env.copyFailsAt 3 = true) (app : DirMap) :
    runCopyLoop env payload 1 3 app =
      (false, env.strayWrites 3 ++ (env.strayWrites 2 ++ (env.strayWrites 1 ++ app))) := by
  rw [show (3 : Nat) = 2 + 1 from rfl, runCopyLoop_fail_step env payload 1 2 app h1,
    show (2 : Nat) = 1 + 1 from rfl, runCopyLoop_fail_step env payload 2 1 _ h2,
    show (1 : Nat) = 0 + 1 from rfl, runCopyLoop_fail_step env payload 3 0 _ h3]
  rfl

/-- A successful loop run ends with the payload copied over some intermediate
target state. -/
lemma runCopyLoop_success {env : ScriptEnv} {payload : DirMap} :
    ∀ (rem attempt : Nat) (app : DirMap),
      (runCopyLoop env payload attempt rem app).1 = true →
      ∃ app', runCopyLoop env payload attempt rem app = (true, payload ++ app') := by
  intro rem
  induction rem with
  | zero => intro a app h; simp [runCopyLoop] at h
  | succ r ih =>
    intro a app h
    by_cases hf : env.copyFailsAt a = true
    · rw [runCopyLoop_fail_step env payload a r app hf] at h ⊢
      exact ih _ _ h
    · exact ⟨app, runCopyLoop_ok_step env payload a r app (by simpa using hf)⟩

/-! ## Helper lemmas: the pipeline's hand-off -/

/-- A spawned configuration determines the pipeline outcome. -/
lemma spawnedCfg_eq {penv : PipeEnv} {st : SysState} {cfg : ScriptCfg}
    (h : spawnedCfg penv st = some cfg) :
    (runPipeline penv st).2 = .spawned cfg := by
  unfold spawnedCfg at h
  rcases ho : (runPipeline penv st).2 with e | cfg'
  · rw [ho] at h; cases h
  · rw [ho] at h; cases h; rfl

/-- What `install_from_zip` guarantees about every script it spawns: the
backup was created (from the pruned application directory) before the script
was written, the `start` target is the recorded `current_exe`, and the temp
directory at spawn time holds the downloaded zip, the backup and the script. -/
lemma runPipeline_spawned {penv : PipeEnv} {st : SysState} {cfg : ScriptCfg}
    (h : (runPipeline penv st).2 = .spawned cfg) :
    cfg.backup = some (flatten (pruneTree st.appDir)) ∧
      cfg.currentExe = st.currentExe ∧
      cfg.appDir = flatten st.appDir ∧
      cfg.temp.zipPresent = true ∧
      cfg.temp.backup = some (pruneTree st.appDir) ∧
      cfg.temp.scriptPresent = true := by
  obtain ⟨dl, ar, bf⟩ := penv
  obtain ⟨app, exe, zp, ex, bk, sp⟩ := st
  rcases dl with _ | code | chunks
  · cases h
  · cases h
  · rcases ar with msg | tree
    · cases h
    · rcases hf : findPayload mainExeName tree with _ | es
      · simp [runPipeline, hf] at h
      · cases bf
        · cases bk <;> simp [runPipeline, hf, create_backup] at h <;>
            simp [← h, runPipeline, hf, create_backup]
        · cases bk <;> simp [runPipeline, hf, create_backup] at h

/-- The pipeline never writes the live application directory (or changes the
recorded executable): all its writes land in the session temp directory. -/
lemma runPipeline_preserves_install (penv : PipeEnv) (st : SysState) :
    (runPipeline penv st).1.appDir = st.appDir ∧
      (runPipeline penv st).1.currentExe = st.currentExe := by
  obtain ⟨dl, ar, bf⟩ := penv
  obtain ⟨app, exe, zp, ex, bk, sp⟩ := st
  rcases dl with _ | code | chunks
  · exact ⟨rfl, rfl⟩
  · exact ⟨rfl, rfl⟩
  · rcases ar with msg | tree
    · exact ⟨rfl, rfl⟩
    · rcases hf : findPayload mainExeName tree with _ | es
      · simp [runPipeline, hf]
      · cases bf
        · cases bk <;> simp [runPipeline, hf, create_backup]
        · cases bk <;> simp [runPipeline, hf, create_backup]

/-! ## Sample concrete session (used by witnesses and counterexamples) -/

/-- A live install: the executable plus a log file (which the backup's
exclusion filter will skip). -/
def sampleAppDir : FS :=
  .dcons "BuildTestSystem.exe" (.file "old")
    (.dcons "debug.log" (.file "x") .dnil)

/-- A downloaded archive whose root directly contains the new executable. -/
def sampleArchive : FS :=
  .dcons "BuildTestSystem.exe" (.file "new") .dnil

/-- Initial system state of the sample session. -/
def sampleSt : SysState :=
  { appDir := sampleAppDir
    currentExe := "C:\\App\\BuildTestSystem.exe"
    temp := { zipPresent := false, extract := none, backup := none, scriptPresent := false } }

/-- Pipeline environment in which every external step succeeds. -/
def samplePEnv : PipeEnv :=
  { download := .ok [8192], archive := .ok sampleArchive, backupWriteFails := false }

/-- The script configuration the sample pipeline hands off. -/
def sampleCfg : ScriptCfg :=
  { payload := [("BuildTestSystem.exe", "new")]
    appDir := [("BuildTestSystem.exe", "old"), ("debug.log", "x")]
    backup := some [("BuildTestSystem.exe", "old")]
    currentExe := "C:\\App\\BuildTestSystem.exe"
    temp := { zipPresent := true, extract := some sampleArchive
              backup := some (.dcons "BuildTestSystem.exe" (.file "old") .dnil)
              scriptPresent := true } }

/-- Script environment: every `xcopy` attempt fails, leaving nothing behind. -/
def sampleEnvAllFail : ScriptEnv :=
  { copyFailsAt := fun _ => true, strayWrites := fun _ => [] }

/-- Script environment: the first `xcopy` attempt succeeds. -/
def sampleEnvNoFail : ScriptEnv :=
  { copyFailsAt := fun _ => false, strayWrites := fun _ => [] }

/-- The sample pipeline really spawns the sample configuration. -/
lemma sample_spawn : spawnedCfg samplePEnv sampleSt = some sampleCfg := rfl

/-- A pipeline environment that fails at the network step. -/
def samplePEnvNetFail : PipeEnv :=
  { download := .netFail, archive := .error "unused", backupWriteFails := false }

/-! ## Claim theorems: the detached routine and the pipeline -/

/-- C1: every script the pipeline spawns is configured with an existing
backup directory (created before hand-off), so every run of the generated
routine — whatever the copy attempts do — terminates having relaunched some
executable: the success branch starts `current_exe` after the copy, and the
rollback branch finds the backup present and starts `current_exe` after
restoring; no terminal state relaunches neither. -/
theorem detached_routine_always_relaunches (penv : PipeEnv) (st : SysState)
    (cfg : ScriptCfg) (env : ScriptEnv) (h : spawnedCfg penv st = some cfg) :
    (runScript env cfg).relaunched.isSome = true := by
  obtain ⟨hb, -, -, -, -, -⟩ := runPipeline_spawned (spawnedCfg_eq h)
  by_cases hok : (runCopyLoop env cfg.payload 1 3 cfg.appDir).1 = true
  · simp [runScript, hok]
  · simp [runScript, hok, hb]

/-- Witness for C1: the sample session, with every copy attempt failing. -/
theorem detached_routine_always_relaunches_witness :
    spawnedCfg samplePEnv sampleSt = some sampleCfg ∧
      (runScript sampleEnvAllFail sampleCfg).relaunched.isSome = true :=
  ⟨sample_spawn,
    detached_routine_always_relaunches samplePEnv sampleSt sampleCfg sampleEnvAllFail
      sample_spawn⟩

/-- C2 counterexample: in the sample session the live directory holds a
`debug.log` which the backup's `*.log` exclusion filter skips.  When every
copy attempt fails, the rollback `xcopy` copies the backup over the target
but deletes nothing, so the restored target still holds `debug.log` — it
does not match the pre-update backup exactly, refuting the claim as stated
(the relaunch of the original executable path does hold). -/
theorem rollback_not_exact_counterexample :
    spawnedCfg samplePEnv sampleSt = some sampleCfg ∧
      sampleCfg.backup = some [("BuildTestSystem.exe", "old")] ∧
      (runScript sampleEnvAllFail sampleCfg).relaunched = some sampleCfg.currentExe ∧
      DirMap.get (runScript sampleEnvAllFail sampleCfg).appDir "debug.log" = some "x" ∧
      DirMap.get [("BuildTestSystem.exe", "old")] "debug.log" = none :=
  ⟨rfl, rfl, rfl, rfl, rfl⟩

/-- C2 (amended): when all three copy attempts fail, the routine copies the
backup over the target — every backed-up file is restored with its
backed-up content — and relaunches the original executable path; but files
the backup filter excluded (`*.tmp`, `*.log`) and stray files deposited by
the failed copy attempts may remain in the target, so the target need not
match the backup exactly. -/
theorem rollback_restores_backup_and_relaunches (penv : PipeEnv) (st : SysState)
    (cfg : ScriptCfg) (env : ScriptEnv) (b : DirMap)
    (h : spawnedCfg penv st = some cfg) (hb : cfg.backup = some b)
    (h1 : env.copyFailsAt 1 = true) (h2 : env.copyFailsAt 2 = true)
    (h3 : env.copyFailsAt 3 = true) :
    (runScript env cfg).relaunched = some cfg.currentExe ∧
      ∀ k v, DirMap.get b k = some v →
        DirMap.get (runScript env cfg).appDir k = some v := by
  have hfail := runCopyLoop_all_fail env cfg.payload h1 h2 h3 cfg.appDir
  constructor
  · simp [runScript, hfail, hb]
  · intro k v hkv
    simp only [runScript, hfail, hb]
    simpa using dirMapGet_append_some _ hkv

/-- Witness for C2 (amended): the sample session with all attempts failing;
the backed-up executable is restored and the original path is relaunched. -/
theorem rollback_restores_backup_and_relaunches_witness :
    spawnedCfg samplePEnv sampleSt = some sampleCfg ∧
      sampleCfg.backup = some [("BuildTestSystem.exe", "old")] ∧
      sampleEnvAllFail.copyFailsAt 1 = true ∧
      sampleEnvAllFail.copyFailsAt 2 = true ∧
      sampleEnvAllFail.copyFailsAt 3 = true ∧
      ((runScript sampleEnvAllFail sampleCfg).relaunched = some sampleCfg.currentExe ∧
        ∀ k v, DirMap.get [("BuildTestSystem.exe", "old")] k = some v →
          DirMap.get (runScript sampleEnvAllFail sampleCfg).appDir k = some v) :=
  ⟨sample_spawn, rfl, rfl, rfl, rfl,
    rollback_restores_backup_and_relaunches samplePEnv sampleSt sampleCfg
      sampleEnvAllFail [("BuildTestSystem.exe", "old")] sample_spawn rfl rfl rfl rfl⟩

/-- C3: every pipeline run that ends in a reported error event — network
failure, HTTP error, corrupt archive, payload not found, backup failure —
leaves the live application directory (and the recorded executable path)
exactly as it was: all pre-commit writes land in the session temp
directory, and a backup failure aborts before the script is ever written
or spawned. -/
theorem precommit_error_leaves_install_untouched (penv : PipeEnv) (st : SysState)
    (e : UpdateError) (h : (runPipeline penv st).2 = .errorReported e) :
    (runPipeline penv st).1.appDir = st.appDir ∧
      (runPipeline penv st).1.currentExe = st.currentExe :=
  runPipeline_preserves_install penv st

/-- Witness for C3: a network failure in the sample session reports an
error and leaves the install untouched. -/
theorem precommit_error_leaves_install_untouched_witness :
    (runPipeline samplePEnvNetFail sampleSt).2 = .errorReported .networkError ∧
      ((runPipeline samplePEnvNetFail sampleSt).1.appDir = sampleSt.appDir ∧
        (runPipeline samplePEnvNetFail sampleSt).1.currentExe = sampleSt.currentExe) :=
  ⟨rfl, precommit_error_leaves_install_untouched samplePEnvNetFail sampleSt
    .networkError rfl⟩

/-- C7 counterexample: a run of the sample session in which the copy
succeeds.  The routine's `:cleanup` removes only the extraction directory
and the script file; the downloaded zip and the backup directory are still
in the session temp directory afterwards, refuting "deletes the
scratch/temp working directory …, leaving no session artifacts behind". -/
theorem success_cleanup_counterexample :
    spawnedCfg samplePEnv sampleSt = some sampleCfg ∧
      (runCopyLoop sampleEnvNoFail sampleCfg.payload 1 3 sampleCfg.appDir).1 = true ∧
      (runScript sampleEnvNoFail sampleCfg).temp.zipPresent = true ∧
      (runScript sampleEnvNoFail sampleCfg).temp.backup =
        some (.dcons "BuildTestSystem.exe" (.file "old") .dnil) :=
  ⟨rfl, rfl, rfl, rfl⟩

/-- C7 (amended): when the copy loop succeeds, the routine relaunches the
recorded executable path (whose file now carries the payload's contents),
then deletes the extraction directory and the script file itself; the
session temp directory itself survives, still holding the downloaded
archive and the backup directory. -/
theorem success_relaunches_and_cleans_extract_only (penv : PipeEnv) (st : SysState)
    (cfg : ScriptCfg) (env : ScriptEnv)
    (h : spawnedCfg penv st = some cfg)
    (hok : (runCopyLoop env cfg.payload 1 3 cfg.appDir).1 = true) :
    (runScript env cfg).relaunched = some cfg.currentExe ∧
      (∀ k v, DirMap.get cfg.payload k = some v →
        DirMap.get (runScript env cfg).appDir k = some v) ∧
      (runScript env cfg).temp.extract = none ∧
      (runScript env cfg).temp.scriptPresent = false ∧
      (runScript env cfg).temp.zipPresent = true ∧
      (runScript env cfg).temp.backup = some (pruneTree st.appDir) := by
  obtain ⟨-, -, -, hzip, hbk, -⟩ := runPipeline_spawned (spawnedCfg_eq h)
  obtain ⟨app', happ⟩ := runCopyLoop_success 3 1 cfg.appDir hok
  refine ⟨?_, ?_, ?_, ?_, ?_, ?_⟩
  · simp [runScript, happ]
  · intro k v hkv
    simp only [runScript, happ]
    simpa using dirMapGet_append_some _ hkv
  · simp [runScript, happ, cleanupTemp]
  · simp [runScript, happ, cleanupTemp]
  · simp [runScript, happ, cleanupTemp, hzip]
  · simp [runScript, happ, cleanupTemp, hbk]

/-- Witness for C7 (amended): the sample session with a first-attempt
success. -/
theorem success_relaunches_and_cleans_extract_only_witness :
    spawnedCfg samplePEnv sampleSt = some sampleCfg ∧
      (runCopyLoop sampleEnvNoFail sampleCfg.payload 1 3 sampleCfg.appDir).1 = true ∧
      (runScript sampleEnvNoFail sampleCfg).relaunched = some sampleCfg.currentExe :=
  ⟨sample_spawn, rfl,
    (success_relaunches_and_cleans_extract_only samplePEnv sampleSt sampleCfg
      sampleEnvNoFail sample_spawn rfl).1⟩

/-! ## Claim C4: the payload-root walk -/

/-- The proposition that some directory of this tree contains `exe` among its plain files —
stated through membership only, with no reference to traversal order. -/
inductive HasPayload (exe : String) : FS → Prop where
  | self {d : FS} (h : hasFile exe d = true) : HasPayload exe d
  | child {n : String} {t rest : FS} (h : HasPayload exe t) :
      HasPayload exe (.dcons n t rest)
  | tail {n : String} {t rest : FS} (h : HasPayload exe rest) :
      HasPayload exe (.dcons n t rest)

/-- A found payload root really contains the executable among its files. -/
lemma findPayload_sound (exe : String) :
    ∀ (t r : FS), findPayload exe t = some r → hasFile exe r = true := by
  intro t
  induction t with
  | file c => intro r h; simp [findPayload] at h
  | dnil => intro r h; simp [findPayload] at h
  | dcons n t rest iht ihr =>
    intro r h
    by_cases hh : hasFile exe (.dcons n t rest) = true
    · simp [findPayload, hh] at h
      rw [← h]
      exact hh
    · simp only [findPayload, hh, if_false, Bool.not_eq_true] at h
      rcases hf : findPayload exe t with _ | r'
      · rw [hf] at h
        exact ihr r h
      · rw [hf] at h
        cases h
        exact iht r hf

/-- If some directory of the tree contains the executable, the walk finds
one. -/
lemma findPayload_complete {exe : String} {t : FS} (hp : HasPayload exe t) :
    (findPayload exe t).isSome = true := by
  induction hp with
  | self h =>
    rename_i d
    cases d with
    | file c => simp [hasFile] at h
    | dnil => simp [hasFile] at h
    | dcons n t rest => simp [findPayload, h]
  | child h ih =>
    rename_i n t rest
    by_cases hh : hasFile exe (.dcons n t rest) = true
    · simp [findPayload, hh]
    · simp only [findPayload, hh, if_false]
      rcases hf : findPayload exe t with _ | r'
      · rw [hf] at ih; cases ih
      · simp
  | tail h ih =>
    rename_i n t rest
    by_cases hh : hasFile exe (.dcons n t rest) = true
    · simp [findPayload, hh]
    · simp only [findPayload, hh, if_false]
      rcases hf : findPayload exe t with _ | r'
      · exact ih
      · simp

/-- Conversely, a successful walk exhibits a directory containing the
executable. -/
lemma findPayload_converse (exe : String) :
    ∀ (t : FS), (findPayload exe t).isSome = true → HasPayload exe t := by
  intro t
  induction t with
  | file c => intro h; simp [findPayload] at h
  | dnil => intro h; simp [findPayload] at h
  | dcons n t rest iht ihr =>
    intro h
    by_cases hh : hasFile exe (.dcons n t rest) = true
    · exact .self hh
    · simp only [findPayload, hh, if_false] at h
      rcases hf : findPayload exe t with _ | r'
      · rw [hf] at h
        exact .tail (ihr h)
      · exact .child (iht (by simp [hf]))

/-- C4: the payload-root search succeeds exactly when some directory of the
extracted tree, at any nesting depth, contains `BuildTestSystem.exe` among
its files (a traversal-order-independent condition); a returned root always
contains the executable (no false match); and the search reports
payload-not-found (`none`, raised as an error by `install_from_zip`)
exactly when no directory of the entire tree contains it. -/
theorem payload_search_exhaustive_and_sound (exe : String) (t : FS) :
    ((findPayload exe t).isSome = true ↔ HasPayload exe t) ∧
      (∀ r, findPayload exe t = some r → hasFile exe r = true) ∧
      (findPayload exe t = none ↔ ¬HasPayload exe t) := by
  refine ⟨⟨findPayload_converse exe t, findPayload_complete⟩,
    findPayload_sound exe t, ?_, ?_⟩
  · intro hn hp
    have := findPayload_complete hp
    simp [hn] at this
  · intro hnp
    rcases hf : findPayload exe t with _ | r
    · rfl
    · exact absurd (findPayload_converse exe t (by simp [hf])) hnp

/-- An archive with the executable nested two directories deep, with noise
files at sibling levels. -/
def nestedArchive : FS :=
  .dcons "app"
    (.dcons "sub"
      (.dcons "BuildTestSystem.exe" (.file "n") (.dcons "noise.txt" (.file "z") .dnil))
      .dnil)
    (.dcons "readme.txt" (.file "r") .dnil)

/-- Witness for C4: the nested sample archive; the walk returns the
`app/sub` directory and that directory contains the executable. -/
theorem payload_search_exhaustive_and_sound_witness :
    findPayload mainExeName nestedArchive =
        some (.dcons "BuildTestSystem.exe" (.file "n")
          (.dcons "noise.txt" (.file "z") .dnil)) ∧
      hasFile mainExeName
        (.dcons "BuildTestSystem.exe" (.file "n")
          (.dcons "noise.txt" (.file "z") .dnil)) = true :=
  ⟨rfl, (payload_search_exhaustive_and_sound mainExeName nestedArchive).2.1 _ rfl⟩

/-! ## Claim C8: the backup snapshot -/

/-- Entry lookup commutes with pruning: an excluded name is gone, any other
name resolves to the pruned original entry. -/
lemma findEntry_prune (n : String) :
    ∀ (t : FS), findEntry n (pruneTree t) =
      (if matchesExclusion n then none else (findEntry n t).map pruneTree) := by
  intro t
  induction t with
  | file c => cases hm : matchesExclusion n <;> simp [pruneTree, findEntry, hm]
  | dnil => cases hm : matchesExclusion n <;> simp [pruneTree, findEntry, hm]
  | dcons m t rest iht ihr =>
    cases hm : matchesExclusion m
    · simp only [pruneTree, hm, if_false, Bool.false_eq_true]
      by_cases hmn : m = n
      · subst hmn
        simp [findEntry, hm]
      · simp [findEntry, hmn, ihr]
    · simp only [pruneTree, hm, if_true]
      by_cases hmn : m = n
      · subst hmn
        simp [findEntry, ihr, hm]
      · simp [findEntry, hmn, ihr]

/-- Path lookup in a pruned tree: a path with an excluded component is gone;
a clean path resolves to the pruned original object. -/
lemma lookup_prune :
    ∀ (p : List String) (t : FS), FS.lookup (pruneTree t) p =
      (if p.all (fun n => !matchesExclusion n) then (FS.lookup t p).map pruneTree
        else none) := by
  intro p
  induction p with
  | nil => intro t; simp [FS.lookup]
  | cons n p ih =>
    intro t
    simp only [FS.lookup, findEntry_prune n t]
    cases hm : matchesExclusion n
    · rcases hf : findEntry n t with _ | u
      · simp [hm]
      · simp [hm, ih u]
    · simp [hm]

/-- C8 counterexample: a source directory holding `logs.log/a.txt`.  The
directory name `logs.log` matches `*.log`, so `copytree`'s filter skips the
whole directory; `a.txt` itself matches no exclusion pattern, yet it is
absent from the backup — refuting "includes every entry except those
matching the exclusion patterns". -/
theorem backup_omits_nonmatching_entry_counterexample :
    create_backup (.dcons "logs.log" (.dcons "a.txt" (.file "x") .dnil) .dnil)
        (some (.dcons "stale.txt" (.file "s") .dnil)) false =
        some .dnil ∧
      FS.lookup (.dcons "logs.log" (.dcons "a.txt" (.file "x") .dnil) .dnil)
        ["logs.log", "a.txt"] = some (.file "x") ∧
      matchesExclusion "a.txt" = false ∧
      FS.lookup (.dnil : FS) ["logs.log", "a.txt"] = none :=
  ⟨rfl, rfl, rfl, rfl⟩

/-- C8 (amended): `create_backup` destroys any prior backup first and
produces the prune of the source — so the result is independent of the
stale backup, with no residue — and the backup contains exactly the entries
of the source reachable through path components that match no exclusion
pattern (entries under a matching directory are excluded along with it),
with contents preserved up to the same pruning. -/
theorem backup_is_pruned_copy_without_stale_residue (appDir : FS)
    (prior : Option FS) :
    create_backup appDir prior false = some (pruneTree appDir) ∧
      ∀ (p : List String), FS.lookup (pruneTree appDir) p =
        (if p.all (fun n => !matchesExclusion n)
          then (FS.lookup appDir p).map pruneTree else none) := by
  constructor
  · cases prior <;> rfl
  · intro p
    exact lookup_prune p appDir

/-! ## Claim C6: one session at a time -/

/-- In every reachable window state with a session in flight, the update
button is disabled. -/
lemma reachable_inflight_button_disabled {s : MWState} (h : Reachable s) :
    (s.phase = .downloading ∨ s.phase = .handedOff) →
      s.updateButtonEnabled = false := by
  induction h with
  | init => intro hp; rcases hp with hp | hp <;> simp [MWState.init] at hp
  | step e hr ih =>
    rename_i s
    cases e with
    | buttonClick confirm =>
      by_cases hen : s.updateButtonEnabled
      · by_cases hc : confirm
        · intro _
          simp [uiStep, hen, startUpdate, hc]
        · intro hp
          simp only [uiStep, hen, if_true, startUpdate, hc, if_false] at hp ⊢
          exact ih hp
      · intro hp
        simp only [uiStep, hen, if_false] at hp ⊢
        exact ih hp
    | progress pct =>
      by_cases hd : s.phase = .downloading
      · intro _
        simp only [uiStep, hd, if_true]
        exact ih (Or.inl hd)
      · intro hp
        simp only [uiStep, hd, if_false] at hp ⊢
        rcases hp with hp | hp
        · exact hp.elim
        · exact ih (Or.inr hp)
    | downloadComplete ic =>
      by_cases hd : s.phase = .downloading
      · by_cases hic : ic
        · intro _
          simp only [uiStep, hd, hic, if_true]
          exact ih (Or.inl hd)
        · intro hp
          simp [uiStep, hd, hic] at hp
      · intro hp
        simp only [uiStep, hd, if_false] at hp ⊢
        rcases hp with hp | hp
        · exact hp.elim
        · exact ih (Or.inr hp)
    | errorSignal msg =>
      by_cases hd : s.phase = .downloading
      · intro hp
        simp [uiStep, hd] at hp
      · intro hp
        simp only [uiStep, hd, if_false] at hp ⊢
        rcases hp with hp | hp
        · exact hp.elim
        · exact ih (Or.inr hp)

/-- C6 counterexample: with a session already in flight (after one confirmed
`start_update`), invoking `start_update` again is not rejected with an
error — it reports no error at all and creates a second downloader, leaving
two sessions started.  The claimed "rejected with a specific error" has no
counterpart in the code. -/
theorem second_start_not_rejected_counterexample :
    (startUpdate MWState.init true).1.phase = .downloading ∧
      (startUpdate (startUpdate MWState.init true).1 true).2 = none ∧
      (startUpdate (startUpdate MWState.init true).1 true).1.downloaderCount = 2 ∧
      (startUpdate (startUpdate MWState.init true).1 true).1.phase = .downloading :=
  ⟨rfl, rfl, rfl, rfl⟩

/-- C6 (amended): while a session is in flight the update button is
disabled, so through the UI no second session can be started — a click is
simply without effect (nothing is queued and no error is raised);
`start_update` itself performs no in-flight check, so only the disabled
button enforces the single-session invariant. -/
theorem second_session_blocked_by_disabled_button (s : MWState)
    (h : Reachable s) (hp : s.phase = .downloading ∨ s.phase = .handedOff) :
    s.updateButtonEnabled = false ∧
      ∀ confirm, uiStep s (.buttonClick confirm) = s := by
  have hb := reachable_inflight_button_disabled h hp
  exact ⟨hb, fun confirm => by simp [uiStep, hb]⟩

/-- Witness for C6 (amended): right after a confirmed click the window is
downloading, the button is disabled, and a further click changes nothing. -/
theorem second_session_blocked_by_disabled_button_witness :
    (uiStep MWState.init (.buttonClick true)).phase = .downloading ∧
      ((uiStep MWState.init (.buttonClick true)).updateButtonEnabled = false ∧
        ∀ confirm, uiStep (uiStep MWState.init (.buttonClick true))
          (.buttonClick confirm) = uiStep MWState.init (.buttonClick true)) :=
  ⟨rfl, second_session_blocked_by_disabled_button _
    (.step (.buttonClick true) .init) (Or.inl rfl)⟩

end BuildTest
